import Mathlib

/-!
Verification development for the recipe-suggester backend
(`python_backend/`: `utils.py`, `action.py`, `perception.py`,
`decision_making.py`, `memory.py`, `models.py`).

The Python code is shallowly embedded: pure string manipulation is modelled
on `List Char` (the ASCII fragment of Python regex classes `\w` and `\s`,
which is the fragment the backend actually exercises), HTTP calls and the
LLM call are modelled by injecting their outcomes as explicit arguments,
and Python exceptions are modelled with `Except`.  Python `None` is
modelled with `Option`, Python float amounts and float delays with `ℚ`.
Python sets that are only used for membership tests are modelled as lists.
-/

/-! ## Python character classes (ASCII fragment)

`isPySpace` is the Python regex class `\s` (space, tab, newline, carriage
return, vertical tab, form feed); `isWordChar` is the ASCII fragment of
`\w` (letters, digits, underscore).  `Char.toLower` agrees with Python
`str.lower` on ASCII text. -/

def isPySpace (c : Char) : Bool :=
  c == ' ' || c == '\t' || c == '\n' || c == '\r' || c == Char.ofNat 11 || c == Char.ofNat 12

def notSpace (c : Char) : Bool := !isPySpace c

def isWordChar (c : Char) : Bool :=
  c.isAlpha || c.isDigit || c == '_'

def pyLower (s : String) : String := ⟨s.data.map Char.toLower⟩

/-- Python substring test: `isPrefixB n l` iff `n` occurs at the start of `l`. -/
def isPrefixB : List Char → List Char → Bool
  | [], _ => true
  | _ :: _, [] => false
  | a :: as, b :: bs => a == b && isPrefixB as bs

/-- Python substring test: `containsB n l` is `n in l` for strings. -/
def containsB (needle : List Char) : List Char → Bool
  | [] => needle.isEmpty
  | c :: rest => isPrefixB needle (c :: rest) || containsB needle rest

/-- Python `needle in hay` on strings. -/
def strIn (needle hay : String) : Bool := containsB needle.data hay.data

/-- Python truthiness of an optional string: `None` and `""` are falsy. -/
def optStrTruthy : Option String → Bool
  | some s => !s.isEmpty
  | none => false

/-! ## Whitespace handling

`collapseWs` is `re.sub(r"\s+", " ", _)`: every maximal whitespace run
becomes a single space.  `stripList` is Python `str.strip()`. -/

def collapseWs : List Char → List Char
  | [] => []
  | [c] => if isPySpace c then [' '] else [c]
  | c :: d :: rest =>
    if isPySpace c then
      if isPySpace d then collapseWs (d :: rest)
      else ' ' :: collapseWs (d :: rest)
    else c :: collapseWs (d :: rest)

def trimRight (l : List Char) : List Char := (l.reverse.dropWhile isPySpace).reverse

def stripList (l : List Char) : List Char := trimRight (l.dropWhile isPySpace)

/-- Python `str.strip()`. -/
def pyStrip (s : String) : String := ⟨stripList s.data⟩

/-- The naive singularization at the end of `normalize_ingredient`
(utils.py lines 14-15): strip a trailing `es`, else a trailing `s`,
applied at most once. -/
def stripPluralSuffix (l : List Char) : List Char :=
  match l.reverse with
  | 's' :: 'e' :: rest => rest.reverse
  | 's' :: rest => rest.reverse
  | _ => l

/-- utils.py `normalize_ingredient`: lowercase, delete `[^\w\s]`, collapse
whitespace runs and strip the ends, then naive singularization. -/
def normalize_ingredient (name : String) : String :=
  if name.isEmpty then ""
  else
    let lowered := name.data.map Char.toLower
    let depunct := lowered.filter (fun c => isWordChar c || isPySpace c)
    let collapsed := stripList (collapseWs depunct)
    ⟨stripPluralSuffix collapsed⟩

/-! Specification-side reading of the whitespace step, written from the
words of the spec: the whitespace-delimited words of the text joined by a
single space (which also trims the ends).  It is proved below to agree
with the `re.sub` + `strip` mechanism of the code. -/

def wordsOf : List Char → List (List Char)
  | [] => []
  | c :: cs =>
    if isPySpace c then wordsOf cs
    else (c :: cs.takeWhile notSpace) :: wordsOf (cs.dropWhile notSpace)
termination_by l => l.length
decreasing_by
  · simp
  · have h : ∀ (l : List Char), (l.dropWhile notSpace).length ≤ l.length := by
      intro l
      induction l with
      | nil => simp
      | cons a t ih =>
        by_cases ha : notSpace a
        · simp [List.dropWhile_cons, ha]
          omega
        · simp [List.dropWhile_cons, ha]
    simp
    exact Nat.lt_succ_of_le (h _)

def joinWords : List (List Char) → List Char
  | [] => []
  | [w] => w
  | w :: ws => w ++ ' ' :: joinWords ws

/-- Spec-side `normalize`: same lowercasing, punctuation and plural steps,
but the whitespace clause read as a words-join. -/
def normalizeSpec (name : String) : String :=
  let lowered := name.data.map Char.toLower
  let depunct := lowered.filter (fun c => isWordChar c || isPySpace c)
  ⟨stripPluralSuffix (joinWords (wordsOf depunct))⟩

/-! ## Data model (models.py) -/

structure SpoonacularIngredient where
  id : Int
  amount : ℚ
  unit : String
  name : String
  original : String
deriving DecidableEq

structure IngredientDetail where
  id : Option Int := none
  name : String
  amount : Option ℚ := none
  unit : Option String := none
  is_estimate : Bool := false
deriving DecidableEq

structure RecipeSummary where
  id : Int
  title : String
  image : Option String := none
  usedIngredientCount : Int := 0
  missedIngredientCount : Int := 0
deriving DecidableEq

/-! ## Ingredient matcher (utils.py `find_missing_ingredients`)

List entries are `Option`-wrapped so that the `if not req_ing` / `if ing`
guards on `None` entries are part of the model.  The Python set of
normalized user ingredients is modelled as a list: it is used only for
membership and existence tests, which are insensitive to duplication and
iteration order. -/

def userNormSet (user_ingredients : List (Option String)) : List String :=
  ((user_ingredients.filterMap fun o => o).filter (fun s => !s.isEmpty)).map normalize_ingredient

/-- The body of the `found` computation in utils.py lines 32-44: direct
membership, else a substring match in either direction against each
non-empty normalized user entry. -/
def ingFound (normalized_req : String) (userNorms : List String) : Bool :=
  userNorms.contains normalized_req ||
    userNorms.any (fun u => !u.isEmpty && (strIn normalized_req u || strIn u normalized_req))

def find_missing_ingredients (required_ingredients : List (Option SpoonacularIngredient))
    (user_ingredients : List (Option String)) : List SpoonacularIngredient :=
  let userNorms := userNormSet user_ingredients
  required_ingredients.filterMap fun o =>
    match o with
    | none => none
    | some req =>
      if req.name.isEmpty then none
      else
        let nr := normalize_ingredient req.name
        if nr.isEmpty then none
        else if ingFound nr userNorms then none
        else some req

/-! ## Fallback generator (action.py `generate_fallback_ingredients`) -/

def saltEstimate : IngredientDetail :=
  { name := "(Estimate) Salt", amount := some 1, unit := some "tsp", is_estimate := true }

def pepperEstimate : IngredientDetail :=
  { name := "(Estimate) Pepper", amount := some ((1 : ℚ) / 2), unit := some "tsp", is_estimate := true }

def oilEstimate : IngredientDetail :=
  { name := "(Estimate) Cooking Oil", amount := some 1, unit := some "tbsp", is_estimate := true }

def pastaEstimate : IngredientDetail :=
  { name := "(Estimate) Pasta", amount := some 8, unit := some "oz", is_estimate := true }

def tomatoSauceEstimate : IngredientDetail :=
  { name := "(Estimate) Tomato Sauce", amount := some 1, unit := some "can", is_estimate := true }

def chickenEstimate : IngredientDetail :=
  { name := "(Estimate) Chicken", amount := some 1, unit := some "lb", is_estimate := true }

def lettuceEstimate : IngredientDetail :=
  { name := "(Estimate) Lettuce", amount := some 1, unit := some "head", is_estimate := true }

def vinaigretteEstimate : IngredientDetail :=
  { name := "(Estimate) Vinaigrette", amount := some 2, unit := some "tbsp", is_estimate := true }

def brothEstimate : IngredientDetail :=
  { name := "(Estimate) Broth", amount := some 4, unit := some "cups", is_estimate := true }

def fallbackBase : List IngredientDetail := [saltEstimate, pepperEstimate, oilEstimate]

def generate_fallback_ingredients (recipe_title : String) : List IngredientDetail :=
  let title := if recipe_title.isEmpty then "" else pyLower recipe_title
  fallbackBase ++
    (if strIn "pasta" title || strIn "spaghetti" title || strIn "lasagna" title
        || strIn "macaroni" title then
      [pastaEstimate, tomatoSauceEstimate]
    else if strIn "chicken" title then [chickenEstimate]
    else if strIn "salad" title then [lettuceEstimate, vinaigretteEstimate]
    else if strIn "soup" title then [brothEstimate]
    else [])

/-- Spec-side category addition, written from the priority wording of the
spec: a single exclusive first-match-wins decision. -/
def fallbackCategoryAddition (recipe_title : String) : List IngredientDetail :=
  let title := if recipe_title.isEmpty then "" else pyLower recipe_title
  if strIn "pasta" title || strIn "spaghetti" title || strIn "lasagna" title
      || strIn "macaroni" title then
    [pastaEstimate, tomatoSauceEstimate]
  else if strIn "chicken" title then [chickenEstimate]
  else if strIn "salad" title then [lettuceEstimate, vinaigretteEstimate]
  else if strIn "soup" title then [brothEstimate]
  else []

/-! ## Error message table (memory.py)

Only the template keys actually exercised by the modelled call sites are
included; each of them has exactly one `{}` slot, so a template is a
(before, after) pair.  Unknown keys fall back to `GENERAL_ERROR`, and an
empty detail leaves the placeholder in place, as `message.format(detail)
if detail else message` does. -/

def errorMessagePieces (key : String) : String × String :=
  if key == "MISSING_API_KEY" then ("", " API key not configured in backend environment.")
  else if key == "SPOONACULAR_ERROR" then ("Error communicating with Spoonacular: ", "")
  else if key == "GEMINI_ERROR" then ("Error communicating with Gemini API: ", "")
  else if key == "TELEGRAM_ERROR" then ("Error sending Telegram message: ", "")
  else if key == "SENDGRID_ERROR" then ("Error sending email via SendGrid: ", "")
  else if key == "LLM_FAILURE" then ("LLM analysis failed: ", "")
  else ("An unexpected backend error occurred: ", "")

def get_error_message (key : String) (detail : String) : String :=
  let p := errorMessagePieces key
  if detail.isEmpty then p.1 ++ "\x7b\x7d" ++ p.2
  else p.1 ++ detail ++ p.2

def MAX_API_RETRIES : Nat := 1

def MAX_LLM_RETRIES : Nat := 2

/-! ## Retry wrappers

`make_request_with_retry_go` is the `while retries <= MAX_API_RETRIES`
loop of action.py lines 13-28 with the wrapped call injected as
`op : Nat → Except ε α` (attempt index to outcome; a `RequestException`
is `Except.error`).  The loop is presented as structural recursion on
`fuel`, which the entry point fixes to `maxR - k`; with that value the
`fuel = 0` equations coincide with the `retries > maxR` exit of the loop,
so no behaviour is added.  `waits` collects the `time.sleep` durations in
seconds and `attempts` counts executions of the wrapped call. -/

structure RetryOutcome (ε α : Type) where
  result : Except ε α
  waits : List ℚ
  attempts : Nat

def make_request_with_retry_go {ε α : Type} (op : Nat → Except ε α) (maxR : Nat) :
    Nat → Nat → RetryOutcome ε α
  | k, 0 =>
    match op k with
    | .ok a => ⟨.ok a, [], 1⟩
    | .error e => ⟨.error e, [], 1⟩
  | k, fuel + 1 =>
    match op k with
    | .ok a => ⟨.ok a, [], 1⟩
    | .error e =>
      if k + 1 > maxR then ⟨.error e, [], 1⟩
      else
        let r := make_request_with_retry_go op maxR (k + 1) fuel
        ⟨r.result, ((1 : ℚ) / 2) * 2 ^ k :: r.waits, r.attempts + 1⟩

def make_request_with_retry_from {ε α : Type} (op : Nat → Except ε α) (maxR : Nat) :
    RetryOutcome ε α :=
  make_request_with_retry_go op maxR 0 maxR

def make_request_with_retry {ε α : Type} (op : Nat → Except ε α) : RetryOutcome ε α :=
  make_request_with_retry_from op MAX_API_RETRIES

/-- One attempt of the Gemini call (perception.py lines 37-73): a parsed
200 response, a retryable `RequestException` (non-200 status or network
error), or a non-request exception (blocked content, missing candidates)
which is returned immediately without retrying. -/
inductive GemAttempt (α : Type) where
  | ok (a : α)
  | reqErr (msg : String)
  | otherErr (msg : String)

def call_gemini_api_with_retry_go {α : Type} (op : Nat → GemAttempt α) (maxR : Nat) :
    Nat → Nat → RetryOutcome String α
  | k, 0 =>
    match op k with
    | .ok a => ⟨.ok a, [], 1⟩
    | .reqErr m => ⟨.error ("LLM API failed after retries: " ++ m), [], 1⟩
    | .otherErr m => ⟨.error ("LLM call failed: " ++ m), [], 1⟩
  | k, fuel + 1 =>
    match op k with
    | .ok a => ⟨.ok a, [], 1⟩
    | .otherErr m => ⟨.error ("LLM call failed: " ++ m), [], 1⟩
    | .reqErr m =>
      if k + 1 > maxR then ⟨.error ("LLM API failed after retries: " ++ m), [], 1⟩
      else
        let r := call_gemini_api_with_retry_go op maxR (k + 1) fuel
        ⟨r.result, (1 : ℚ) * 2 ^ k :: r.waits, r.attempts + 1⟩

def call_gemini_api_with_retry_from {α : Type} (op : Nat → GemAttempt α) (maxR : Nat) :
    RetryOutcome String α :=
  call_gemini_api_with_retry_go op maxR 0 maxR

def call_gemini_api_with_retry {α : Type} (op : Nat → GemAttempt α) : RetryOutcome String α :=
  call_gemini_api_with_retry_from op MAX_LLM_RETRIES

/-! ## Reasoning metadata extraction (perception.py `extract_reasoning_metadata`)

`findErrTags` is `re.findall(r"\[ERROR:\s*(.*?)\]", text, re.IGNORECASE)`:
scan left to right; at a case-insensitive `[error:` skip whitespace
greedily, then capture up to the first `]` with no interposed newline
(`.` does not match a newline), and resume after the `]`.  The scan is
presented as structural recursion on a fuel initialised to the text
length; every successful match consumes at least one character, so the
fuel never runs out. -/

/-- Case-insensitive literal match: the remainder of `l` after the
pattern, when the pattern occurs at the front of `l` up to case. -/
def matchPrefixCI : List Char → List Char → Option (List Char)
  | [], l => some l
  | _ :: _, [] => none
  | p :: ps, c :: cs => if p.toLower == c.toLower then matchPrefixCI ps cs else none

def matchErrTagAt (l : List Char) : Option (String × List Char) :=
  match matchPrefixCI "[error:".data l with
  | none => none
  | some rest =>
    let rest2 := rest.dropWhile isPySpace
    let content := rest2.takeWhile (fun c => !(c == ']') && !(c == '\n'))
    match rest2.drop content.length with
    | ']' :: rem => some (⟨content⟩, rem)
    | _ => none

def findErrTagsGo : Nat → List Char → List String
  | _, [] => []
  | 0, _ :: _ => []
  | fuel + 1, c :: rest =>
    match matchErrTagAt (c :: rest) with
    | some (s, rem) => s :: findErrTagsGo fuel rem
    | none => findErrTagsGo fuel rest

def findErrTags (l : List Char) : List String := findErrTagsGo l.length l

/-- Lexicographic comparison of strings by code point, as Python `sorted`
uses on `str`. -/
def charListLe : List Char → List Char → Bool
  | [], _ => true
  | _ :: _, [] => false
  | a :: as, b :: bs => if a == b then charListLe as bs else decide (a < b)

def strLeB (a b : String) : Bool := charListLe a.data b.data

def insertSorted (s : String) : List String → List String
  | [] => [s]
  | t :: ts => if strLeB s t then s :: t :: ts else t :: insertSorted s ts

def sortStrings : List String → List String
  | [] => []
  | s :: ss => insertSorted s (sortStrings ss)

/-- `list(set(xs))`: the distinct elements, in some order (the order is
irrelevant because the result is sorted afterwards). -/
def dedupStr : List String → List String
  | [] => []
  | s :: ss => if ss.contains s then dedupStr ss else s :: dedupStr ss

/-- Python `sep.join(xs)`. -/
def pyJoin (sep : String) : List String → String
  | [] => ""
  | [s] => s
  | s :: ss => s ++ sep ++ pyJoin sep ss

/-- The `errors` field computed by `extract_reasoning_metadata`
(perception.py lines 193-199): the sorted deduplicated stripped `[ERROR: X]`
captures joined by `"; "`, plus a suffix listing the raw captures that
mention `preference` (case-insensitively) when there are any. -/
def metadataErrorsBase (llm_response : String) : String :=
  pyJoin "; " (sortStrings (dedupStr ((findErrTags llm_response.data).map pyStrip)))

def metadataErrorsPref (llm_response : String) : List String :=
  (findErrTags llm_response.data).filter (fun e => strIn "preference" (pyLower e))

def metadataErrors (llm_response : String) : String :=
  metadataErrorsBase llm_response ++
    (if (metadataErrorsPref llm_response).isEmpty then ""
     else "; Preference-related errors: " ++ pyJoin "; " (metadataErrorsPref llm_response))

/-! ## Reasoning gateway (perception.py `run_llm_analysis`)

The remote call (after `_call_gemini_api_with_retry` and the candidate
text lookup) is injected as a `GeminiRaw` value: the returned error
structure, a successfully extracted reply text, or a response whose
structure could not be parsed.  Prompt building and the log-file side
effects are outside the model. -/

structure LLMAnalysisResult where
  response_text : String := ""
  metaErrors : String := ""
  error : Option String := none
  prompt : Option String := none
deriving DecidableEq

inductive GeminiRaw where
  | apiError (msg : String)
  | okText (text : String)
  | badStructure (msg : String)
deriving DecidableEq

def run_llm_analysis (api_key : Option String) (promptBuilt : String) (raw : GeminiRaw) :
    LLMAnalysisResult :=
  match api_key with
  | none =>
    { response_text := "[Fallback due to missing API key]",
      metaErrors := "",
      error := some (get_error_message "MISSING_API_KEY" "Gemini"),
      prompt := none }
  | some _ =>
    match raw with
    | .apiError msg =>
      let err := get_error_message "LLM_FAILURE" msg
      { response_text := "[Fallback due to LLM API error: " ++ err ++ "]",
        metaErrors := "",
        error := some err,
        prompt := some promptBuilt }
    | .okText text =>
      let errs := metadataErrors text
      { response_text := text,
        metaErrors := errs,
        error := if errs.isEmpty then none else some ("LLM identified issues: " ++ errs),
        prompt := some promptBuilt }
    | .badStructure msg =>
      let err := get_error_message "LLM_FAILURE" ("Invalid response structure: " ++ msg)
      { response_text := "[Fallback due to response parsing error: " ++ err ++ "]",
        metaErrors := "Response parsing failed",
        error := some err,
        prompt := some promptBuilt }

/-! ## Delivery gateways (action.py `send_telegram_message`, `send_sendgrid_email`)

The outcome of `_make_request_with_retry` is injected: `Except.ok` is a
delivered HTTP response (necessarily with status below 400, since the
wrapper raises for 4xx/5xx), `Except.error` a `RequestException` after the
retries.  Response bodies are typed records standing for the parsed JSON. -/

structure HttpResponse (β : Type) where
  status : Nat
  body : β
deriving DecidableEq

inductive ReqFailure where
  | netErr (msg : String)
  | httpErr (status : Nat) (msg : String)
deriving DecidableEq

/-- `getattr(e.response, "status_code", 500) if hasattr(e, "response") else 500`. -/
def reqFailureStatus : ReqFailure → Nat
  | .netErr _ => 500
  | .httpErr s _ => s

def reqFailureText : ReqFailure → String
  | .netErr m => m
  | .httpErr _ m => m

structure SendResult where
  success : Bool
  message : String
deriving DecidableEq

structure TelegramBody where
  ok : Bool
  description : Option String := none
  error_code : Option Int := none
deriving DecidableEq

def telegramReqDetail (e : ReqFailure) : String :=
  let status := reqFailureStatus e
  if status == 401 || status == 403 then "Authentication failed (Invalid Bot Token?)"
  else "Status " ++ toString status ++ ": " ++ reqFailureText e

def send_telegram_message (api_key : Option String) (chat_id : String) (_text : String)
    (wrapped : Except ReqFailure (HttpResponse TelegramBody)) : SendResult :=
  match api_key with
  | none => { success := false, message := get_error_message "MISSING_API_KEY" "Telegram Bot" }
  | some _ =>
    match wrapped with
    | .ok resp =>
      if resp.body.ok then
        { success := true, message := "Shopping list sent successfully via Telegram!" }
      else
        let error_desc := resp.body.description.getD "Unknown Telegram error"
        let specific_error :=
          if resp.body.error_code == some 400 && strIn "chat not found" error_desc then
            "Chat ID \x27" ++ chat_id ++ "\x27 not found or invalid."
          else if resp.body.error_code == some 403 && strIn "bot was blocked" error_desc then
            "Bot was blocked by the user."
          else error_desc
        { success := false, message := get_error_message "TELEGRAM_ERROR" specific_error }
    | .error e =>
      { success := false, message := get_error_message "TELEGRAM_ERROR" (telegramReqDetail e) }

structure SgErrorItem where
  message : Option String := none
deriving DecidableEq

structure SgBody where
  errors : Option (List SgErrorItem) := none
deriving DecidableEq

/-- The non-202 detail derivation of action.py lines 190-202: start from
the basic status text, and if the body parsed as JSON with a non-empty
`errors` list, refine it from the error messages (with the two
substring-dispatched special cases).  A body of `none` stands for a
response whose JSON parse raised. -/
def sendgridDetail (to_email sender_email : String) (resp : HttpResponse (Option SgBody)) :
    String :=
  let base := "SendGrid returned status " ++ toString resp.status
  match resp.body with
  | none => base
  | some b =>
    match b.errors with
    | none => base
    | some [] => base
    | some (e :: es) =>
      let messages := (e :: es).map (fun x => x.message.getD "")
      if messages.any (fun m => strIn "valid email address" m) then
        "Invalid recipient email format \x27" ++ to_email ++ "\x27."
      else if messages.any (fun m =>
          strIn "permission" m || strIn "authenticate" m || strIn "verified sender" m) then
        "Sender email \x27" ++ sender_email ++ "\x27 might not be verified or have sending permissions in SendGrid."
      else "SendGrid Error(s): " ++ pyJoin "; " messages

def sendgridReqDetail (e : ReqFailure) : String :=
  let status := reqFailureStatus e
  if status == 401 || status == 403 then "Authentication failed (Invalid API Key or Permissions?)"
  else "Status " ++ toString status ++ ": " ++ reqFailureText e

def send_sendgrid_email (api_key sender_email : Option String) (to_email : String)
    (_subject _body : String) (wrapped : Except ReqFailure (HttpResponse (Option SgBody))) :
    SendResult :=
  match api_key with
  | none => { success := false, message := get_error_message "MISSING_API_KEY" "SendGrid" }
  | some _ =>
    match sender_email with
    | none =>
      { success := false,
        message := "SendGrid sender email not configured in backend environment." }
    | some sender =>
      match wrapped with
      | .ok resp =>
        if resp.status == 202 then
          { success := true, message := "Shopping list sent successfully via Email!" }
        else
          { success := false,
            message := get_error_message "SENDGRID_ERROR" (sendgridDetail to_email sender resp) }
      | .error e =>
        { success := false, message := get_error_message "SENDGRID_ERROR" (sendgridReqDetail e) }

/-! ## Orchestration pipelines (decision_making.py)

The collaborator results (`run_llm_analysis` output and the Spoonacular
gateway outcome) are injected as arguments; the pipelines are otherwise
the code of `process_find_recipes` / `process_get_missing_ingredients`.
`SpoonOutcome` is the `{"data": ..., "error": ...}` envelope of the
Spoonacular gateway functions. -/

structure SpoonOutcome (α : Type) where
  data : Option α
  error : Option String
deriving DecidableEq

structure FindRecipesRequest where
  ingredients : String
  foodType : Option String := some "any"
  cuisine : Option String := some "any"
deriving DecidableEq

structure FindRecipesResponse where
  recipes : Option (List RecipeSummary)
  error : Option String
  llm_prompt : Option String
  metaErrors : String
deriving DecidableEq

/-- A raw Spoonacular `findByIngredients` list item: `id` / `title` being
`none` stands for a missing dictionary key. -/
structure RawRecipeItem where
  id : Option Int := none
  title : Option String := none
  image : Option String := none
  usedIngredientCount : Option Int := none
  missedIngredientCount : Option Int := none
deriving DecidableEq

/-- Building one `RecipeSummary` (decision_making.py lines 63-69):
`item["id"]` and `item["title"]` raise `KeyError` when absent, the other
fields use `.get` defaults. -/
def parseRecipeItem (it : RawRecipeItem) : Except String RecipeSummary :=
  match it.id, it.title with
  | some i, some t =>
    .ok { id := i, title := t, image := it.image,
          usedIngredientCount := it.usedIngredientCount.getD 0,
          missedIngredientCount := it.missedIngredientCount.getD 0 }
  | none, _ => .error "\x27id\x27"
  | some _, none => .error "\x27title\x27"

/-- The short-circuit test of decision_making.py lines 31-33. -/
def llmInvalidShortCircuit (llm_result : LLMAnalysisResult) : Bool :=
  (optStrTruthy llm_result.error && strIn "LLM identified issues" (llm_result.error.getD ""))
    && strIn "Invalid ingredients" llm_result.metaErrors

def process_find_recipes (_request : FindRecipesRequest) (llm_result : LLMAnalysisResult)
    (api_result : SpoonOutcome (List RawRecipeItem)) : FindRecipesResponse :=
  if llmInvalidShortCircuit llm_result then
    { recipes := none,
      error := some ("Invalid ingredients detected: " ++ llm_result.metaErrors),
      llm_prompt := llm_result.prompt,
      metaErrors := llm_result.metaErrors }
  else if optStrTruthy api_result.error then
    { recipes := none,
      error := api_result.error,
      llm_prompt := llm_result.prompt,
      metaErrors := llm_result.metaErrors }
  else
    let items := match api_result.data with
      | some l => l
      | none => []
    match items.mapM parseRecipeItem with
    | .error e =>
      { recipes := none,
        error := some ("Error processing recipe data: " ++ e),
        llm_prompt := llm_result.prompt,
        metaErrors := llm_result.metaErrors }
    | .ok recipes =>
      { recipes := some recipes,
        error :=
          if recipes.isEmpty then
            some "No recipes found matching your ingredients and preferences."
          else none,
        llm_prompt := llm_result.prompt,
        metaErrors := llm_result.metaErrors }

structure GetMissingIngredientsRequest where
  recipeId : Int
  recipeTitle : String
  userIngredients : List String
deriving DecidableEq

structure GetMissingIngredientsResponse where
  missingIngredients : Option (List IngredientDetail)
  isEstimate : Bool
  error : Option String
  llm_prompt : Option String
deriving DecidableEq

/-- The recipe-detail payload: `extendedIngredients = none` stands for the
key being absent; each entry is the result of the Pydantic conversion of
that entry (an `Except.error` entry is a dictionary the model rejects). -/
structure RecipeData where
  extendedIngredients : Option (List (Except String SpoonacularIngredient)) := none

/-- The ingredient extraction try-block of decision_making.py lines
127-137: an absent key leaves the required list empty; a present but empty
list raises `IndexError` at `[0]`; otherwise each entry is converted and
the first conversion failure raises. -/
def extractRequiredIngredients (d : RecipeData) :
    Except String (List SpoonacularIngredient) :=
  match d.extendedIngredients with
  | none => .ok []
  | some [] => .error "list index out of range"
  | some (e :: es) => (e :: es).mapM (fun x => x)

def process_get_missing_ingredients (request : GetMissingIngredientsRequest)
    (llm_result : LLMAnalysisResult) (api_result : SpoonOutcome RecipeData) :
    GetMissingIngredientsResponse :=
  if optStrTruthy api_result.error then
    { missingIngredients := some (generate_fallback_ingredients request.recipeTitle),
      isEstimate := true,
      error := some ("Could not retrieve exact recipe ingredients: " ++ api_result.error.getD ""),
      llm_prompt := llm_result.prompt }
  else
    let extraction : Except String (List SpoonacularIngredient) :=
      match api_result.data with
      | none => .error "argument of type \x27NoneType\x27 is not iterable"
      | some d => extractRequiredIngredients d
    match extraction with
    | .error e =>
      { missingIngredients := some (generate_fallback_ingredients request.recipeTitle),
        isEstimate := true,
        error := some ("Error processing recipe ingredients: " ++ e),
        llm_prompt := llm_result.prompt }
    | .ok required_ingredients =>
      let missing_raw := find_missing_ingredients (required_ingredients.map some)
        (request.userIngredients.map some)
      { missingIngredients := some (missing_raw.map fun ing =>
          ({ id := some ing.id, name := ing.name, amount := some ing.amount,
             unit := some ing.unit, is_estimate := false } : IngredientDetail)),
        isEstimate := false,
        error := none,
        llm_prompt := llm_result.prompt }

/-! ## Concrete sample values used in closed theorems -/

def onionIng : SpoonacularIngredient :=
  { id := 1, amount := 1, unit := "", name := "onion", original := "1 onion" }

def sIng : SpoonacularIngredient :=
  { id := 2, amount := 1, unit := "", name := "s", original := "s" }

def blankIng : SpoonacularIngredient :=
  { id := 3, amount := 1, unit := "", name := "", original := "" }

/-- A benign reasoning result: successful call, no extracted issues. -/
def llmBenign : LLMAnalysisResult :=
  { response_text := "All good.", metaErrors := "", error := none, prompt := some "p" }

/-! ## Supporting lemmas: whitespace collapsing versus words-joining -/

theorem dw_len (p : Char → Bool) : ∀ (l : List Char), (l.dropWhile p).length ≤ l.length := by
  intro l
  induction l with
  | nil => simp
  | cons a t ih =>
    by_cases ha : p a
    · rw [List.dropWhile_cons_of_pos ha, List.length_cons]
      omega
    · rw [List.dropWhile_cons_of_neg ha]

theorem dw_all (p : Char → Bool) : ∀ (l : List Char), (∀ x ∈ l, p x = false) →
    l.dropWhile p = l := by
  intro l h
  induction l with
  | nil => rfl
  | cons a t ih =>
    have ha : p a = false := h a (by simp)
    rw [List.dropWhile_cons_of_neg (by simp [ha])]

theorem dw_append (p : Char → Bool) : ∀ (l₁ l₂ : List Char),
    (l₁ ++ l₂).dropWhile p =
      if (l₁.dropWhile p).isEmpty then l₂.dropWhile p else l₁.dropWhile p ++ l₂ := by
  intro l₁ l₂
  induction l₁ with
  | nil => simp
  | cons a t ih =>
    by_cases ha : p a
    · rw [List.cons_append, List.dropWhile_cons_of_pos ha, List.dropWhile_cons_of_pos ha, ih]
    · rw [List.cons_append, List.dropWhile_cons_of_neg ha, List.dropWhile_cons_of_neg ha]
      simp

theorem dw_head_false (p : Char → Bool) : ∀ (l : List Char) (a : Char) (t : List Char),
    l.dropWhile p = a :: t → p a = false := by
  intro l
  induction l with
  | nil => intro a t h; simp at h
  | cons x xs ih =>
    intro a t h
    by_cases hx : p x
    · rw [List.dropWhile_cons_of_pos hx] at h
      exact ih a t h
    · rw [List.dropWhile_cons_of_neg hx] at h
      injection h with h1 _
      subst h1
      simpa using hx

theorem collapseWs_cons_notSpace {c : Char} (hc : isPySpace c = false) (l : List Char) :
    collapseWs (c :: l) = c :: collapseWs l := by
  cases l with
  | nil => simp [collapseWs, hc]
  | cons d t => simp [collapseWs, hc]

theorem collapseWs_word_append : ∀ (w z : List Char), (∀ x ∈ w, isPySpace x = false) →
    collapseWs (w ++ z) = w ++ collapseWs z := by
  intro w z h
  induction w with
  | nil => simp
  | cons a t ih =>
    have ha : isPySpace a = false := h a (by simp)
    rw [List.cons_append, collapseWs_cons_notSpace ha, ih (fun x hx => h x (by simp [hx]))]
    rfl

theorem trimRight_append_word : ∀ (w X : List Char), (∀ x ∈ w, isPySpace x = false) →
    trimRight (w ++ X) = w ++ trimRight X := by
  intro w X h
  unfold trimRight
  rw [List.reverse_append, dw_append]
  have hw : List.dropWhile isPySpace w.reverse = w.reverse :=
    dw_all _ _ (fun x hx => h x (List.mem_reverse.mp hx))
  by_cases hX : (X.reverse.dropWhile isPySpace).isEmpty
  · rw [if_pos hX, hw]
    have : X.reverse.dropWhile isPySpace = [] := List.isEmpty_iff.mp hX
    rw [this]
    simp
  · rw [if_neg hX, List.reverse_append, List.reverse_reverse]

theorem trimRight_cons_space (X : List Char) :
    trimRight (' ' :: X) = if trimRight X = [] then [] else ' ' :: trimRight X := by
  unfold trimRight
  have hrev : (' ' :: X).reverse = X.reverse ++ [' '] := by simp
  rw [hrev, dw_append]
  by_cases hX : (X.reverse.dropWhile isPySpace).isEmpty
  · have h0 : X.reverse.dropWhile isPySpace = [] := List.isEmpty_iff.mp hX
    rw [if_pos hX, h0]
    simp [List.dropWhile, isPySpace]
  · have h0 : X.reverse.dropWhile isPySpace ≠ [] := by
      intro h
      rw [h] at hX
      simp at hX
    rw [if_neg hX, List.reverse_append]
    have h1 : (X.reverse.dropWhile isPySpace).reverse ≠ [] := by
      simpa using h0
    rw [if_neg h1]
    simp

theorem wordsOf_nil : wordsOf [] = [] := by
  simp [wordsOf]

theorem wordsOf_cons_space {c : Char} (hc : isPySpace c = true) (cs : List Char) :
    wordsOf (c :: cs) = wordsOf cs := by
  rw [wordsOf]
  simp [hc]

theorem wordsOf_cons_word {c : Char} (hc : isPySpace c = false) (cs : List Char) :
    wordsOf (c :: cs) = (c :: cs.takeWhile notSpace) :: wordsOf (cs.dropWhile notSpace) := by
  rw [wordsOf]
  simp [hc]

theorem joinWords_cons (w : List Char) (ws : List (List Char)) :
    joinWords (w :: ws) = w ++ (if ws.isEmpty then [] else ' ' :: joinWords ws) := by
  cases ws <;> simp [joinWords]

theorem stripCollapse_main : ∀ (n : Nat) (l : List Char), l.length ≤ n →
    (stripList (collapseWs l) = joinWords (wordsOf l)) ∧
    (∀ c cs, l = c :: cs → isPySpace c = true →
      trimRight (collapseWs l) =
        if (wordsOf l).isEmpty then [] else ' ' :: joinWords (wordsOf l)) := by
  intro n
  induction n with
  | zero =>
    intro l hl
    have hnil : l = [] := by
      cases l with
      | nil => rfl
      | cons a t => simp at hl
    subst hnil
    refine ⟨?_, ?_⟩
    · simp [stripList, trimRight, collapseWs, wordsOf_nil, joinWords]
    · intro c cs h
      simp at h
  | succ n ih =>
    intro l hl
    cases l with
    | nil =>
      refine ⟨?_, ?_⟩
      · simp [stripList, trimRight, collapseWs, wordsOf_nil, joinWords]
      · intro c cs h
        simp at h
    | cons c cs =>
      have hlen : cs.length ≤ n := by
        simp at hl
        omega
      by_cases hc : isPySpace c = true
      · refine ⟨?_, ?_⟩
        · cases cs with
          | nil =>
            rw [wordsOf_cons_space hc, wordsOf_nil]
            have e0 : collapseWs [c] = [' '] := by simp [collapseWs, hc]
            rw [e0]
            unfold stripList trimRight
            rw [List.dropWhile_cons_of_pos (by decide : isPySpace ' ' = true)]
            simp [joinWords]
          | cons d cs2 =>
            by_cases hd : isPySpace d = true
            · have e1 : collapseWs (c :: d :: cs2) = collapseWs (d :: cs2) := by
                simp [collapseWs, hc, hd]
              rw [e1, wordsOf_cons_space hc]
              exact (ih (d :: cs2) hlen).1
            · have e1 : collapseWs (c :: d :: cs2) = ' ' :: collapseWs (d :: cs2) := by
                simp [collapseWs, hc, hd]
              have e2 : stripList (' ' :: collapseWs (d :: cs2)) =
                  stripList (collapseWs (d :: cs2)) := by
                unfold stripList
                rw [List.dropWhile_cons_of_pos (by simp [isPySpace] : isPySpace ' ' = true)]
              rw [e1, e2, wordsOf_cons_space hc]
              exact (ih (d :: cs2) hlen).1
        · intro c2 cs2 heq hc2
          cases cs with
          | nil =>
            rw [wordsOf_cons_space hc, wordsOf_nil]
            have e0 : collapseWs [c] = [' '] := by simp [collapseWs, hc]
            rw [e0]
            unfold trimRight
            rw [show ([' '] : List Char).reverse = [' '] from rfl,
              List.dropWhile_cons_of_pos (by decide : isPySpace ' ' = true)]
            simp
          | cons d cs2b =>
            by_cases hd : isPySpace d = true
            · have e1 : collapseWs (c :: d :: cs2b) = collapseWs (d :: cs2b) := by
                simp [collapseWs, hc, hd]
              rw [e1, wordsOf_cons_space hc]
              exact (ih (d :: cs2b) hlen).2 d cs2b rfl hd
            · have hd' : isPySpace d = false := by simpa using hd
              have e1 : collapseWs (c :: d :: cs2b) = ' ' :: collapseWs (d :: cs2b) := by
                simp [collapseWs, hc, hd]
              rw [e1, trimRight_cons_space, wordsOf_cons_space hc]
              have e3 : trimRight (collapseWs (d :: cs2b)) =
                  stripList (collapseWs (d :: cs2b)) := by
                unfold stripList
                rw [collapseWs_cons_notSpace hd']
                rw [List.dropWhile_cons_of_neg (by simp [hd'])]
              rw [e3, (ih (d :: cs2b) hlen).1]
              rw [wordsOf_cons_word hd']
              simp [joinWords_cons]
      · have hc' : isPySpace c = false := by simpa using hc
        refine ⟨?_, ?_⟩
        · have hw : ∀ x ∈ c :: cs.takeWhile notSpace, isPySpace x = false := by
            intro x hx
            rcases List.mem_cons.mp hx with h | h
            · rw [h]
              exact hc'
            · have hx2 : notSpace x = true := List.mem_takeWhile_imp h
              simpa [notSpace] using hx2
          have hsplit : c :: cs = (c :: cs.takeWhile notSpace) ++ cs.dropWhile notSpace := by
            rw [List.cons_append, List.takeWhile_append_dropWhile]
          conv_lhs => rw [hsplit]
          rw [collapseWs_word_append _ _ hw]
          unfold stripList
          rw [List.cons_append, List.dropWhile_cons_of_neg (by simp [hc'])]
          rw [← List.cons_append, trimRight_append_word _ _ hw]
          rw [wordsOf_cons_word hc', joinWords_cons]
          congr 1
          cases hr : cs.dropWhile notSpace with
          | nil => simp [collapseWs, trimRight, wordsOf_nil]
          | cons s r2 =>
            have hs : isPySpace s = true := by
              have h0 := dw_head_false notSpace cs s r2 hr
              simpa [notSpace] using h0
            have hrlen : (s :: r2).length ≤ n := by
              have h1 := dw_len notSpace cs
              rw [hr] at h1
              simp at h1
              simp
              omega
            exact (ih (s :: r2) hrlen).2 s r2 rfl hs
        · intro c2 cs2 heq hc2
          injection heq with h1 h2
          rw [← h1] at hc2
          exact absurd hc2 hc

theorem stripCollapse_eq (l : List Char) : stripList (collapseWs l) = joinWords (wordsOf l) :=
  (stripCollapse_main l.length l le_rfl).1

theorem normalize_eq_normalizeSpec (name : String) :
    normalize_ingredient name = normalizeSpec name := by
  by_cases h : name = ""
  · rw [h]
    have e1 : normalize_ingredient "" = "" := by rfl
    have e2 : normalizeSpec "" = "" := by
      unfold normalizeSpec
      rw [show ("" : String).data = [] from rfl]
      simp only [List.map_nil, List.filter_nil, wordsOf_nil]
      rfl
    rw [e1, e2]
  · have h2 : name.isEmpty = false := by
      rw [Bool.eq_false_iff]
      intro hx
      exact h ((String.isEmpty_iff name).mp hx)
    simp only [normalize_ingredient, normalizeSpec, h2, Bool.false_eq_true, if_false]
    rw [stripCollapse_eq]

/-! ## Supporting lemmas: the ingredient matcher as a filter -/

theorem find_missing_eq_filter (required : List (Option SpoonacularIngredient))
    (user : List (Option String)) :
    find_missing_ingredients required user =
      (required.filterMap id).filter (fun req =>
        !req.name.isEmpty && !(normalize_ingredient req.name).isEmpty &&
          !ingFound (normalize_ingredient req.name) (userNormSet user)) := by
  induction required with
  | nil => rfl
  | cons o rest ih =>
    cases o with
    | none =>
      simpa only [find_missing_ingredients, List.filterMap_cons] using ih
    | some req =>
      simp only [find_missing_ingredients, List.filterMap_cons] at ih ⊢
      simp only [id, List.filter_cons]
      by_cases h1 : req.name.isEmpty = true
      · simp [h1, ih]
      · by_cases h2 : (normalize_ingredient req.name).isEmpty = true
        · simp [h1, h2, ih]
        · by_cases h3 : ingFound (normalize_ingredient req.name) (userNormSet user) = true
          · simp [h1, h2, h3, ih]
          · simp [h1, h2, h3, ih]

/-! ## Claim theorems -/

/-- C1 counterexample: the claim says that whenever one normalized string
of a required/owned pair is a substring of the other, the required
ingredient is excluded from the result.  With owned entry `"!!"`, whose
normalized form is the empty string (a substring of every string,
including `normalize "onion"`), the code still returns the `onion`
ingredient: the inner loop skips empty normalized owned entries. -/
theorem C1_counterexample :
    strIn (normalize_ingredient "!!") (normalize_ingredient "onion") = true ∧
    find_missing_ingredients [some onionIng] [some "!!"] = [onionIng] := by
  constructor
  · decide
  · rfl

/-- C1 (amended): `findMissing` returns exactly the present required
ingredients with a non-empty name and a non-empty normalized name that are
not satisfied, in the original order, where satisfied means the normalized
name equals an owned normalized form or is a substring of, or contains,
some non-empty owned normalized form; and any required/owned pair whose
non-empty normalized strings stand in the substring relation causes the
required ingredient to be excluded. -/
theorem C1_amended_find_missing :
    (∀ (required : List (Option SpoonacularIngredient)) (user : List (Option String)),
      find_missing_ingredients required user =
        (required.filterMap id).filter (fun req =>
          !req.name.isEmpty && !(normalize_ingredient req.name).isEmpty &&
            !ingFound (normalize_ingredient req.name) (userNormSet user))) ∧
    (∀ (required : List (Option SpoonacularIngredient)) (user : List (Option String))
        (req : SpoonacularIngredient) (u : String),
      u ∈ userNormSet user → u.isEmpty = false →
      (strIn (normalize_ingredient req.name) u || strIn u (normalize_ingredient req.name)) = true →
      req ∉ find_missing_ingredients required user) := by
  constructor
  · exact find_missing_eq_filter
  · intro required user req u hu hne hsub hmem
    rw [find_missing_eq_filter] at hmem
    have hpred := (List.mem_filter.mp hmem).2
    simp only [Bool.and_eq_true, Bool.not_eq_true'] at hpred
    have hfound : ingFound (normalize_ingredient req.name) (userNormSet user) = true := by
      unfold ingFound
      have hany : (userNormSet user).any (fun v =>
          !v.isEmpty && (strIn (normalize_ingredient req.name) v
            || strIn v (normalize_ingredient req.name))) = true := by
        rw [List.any_eq_true]
        exact ⟨u, hu, by simp [hne, hsub]⟩
      simp [hany]
    rw [hpred.2] at hfound
    exact absurd hfound (by simp)

/-- C1 amended witness: `onion` is required, the user owns `"Red Onions"`
(normalized `"red onion"`, of which `"onion"` is a substring), so `onion`
is not reported missing. -/
theorem C1_witness :
    onionIng ∉ find_missing_ingredients [some onionIng] [some "Red Onions"] :=
  C1_amended_find_missing.2 [some onionIng] [some "Red Onions"] onionIng "red onion"
    (by decide) (by decide) (by decide)

/-- C8 counterexample: the claim says `findMissing(required, [])` returns
all required ingredients with a non-empty name.  The ingredient named
`"s"` has a non-empty name, but its normalized name is empty (the naive
singularization strips the lone `s`), so the code silently drops it. -/
theorem C8_counterexample :
    sIng.name ≠ "" ∧ find_missing_ingredients [some sIng] [] = [] := by
  constructor
  · decide
  · rfl

/-- C8 (amended): `findMissing([], anything) = []`;
`findMissing(required, [])` returns all present required ingredients whose
name and normalized name are both non-empty; and `None` or empty-name
entries in the required list, and `None` or empty-string entries in the
owned list, are skipped silently without affecting the result. -/
theorem C8_amended_edge_cases :
    (∀ user, find_missing_ingredients [] user = []) ∧
    (∀ required, find_missing_ingredients required [] =
      (required.filterMap id).filter (fun req =>
        !req.name.isEmpty && !(normalize_ingredient req.name).isEmpty)) ∧
    (∀ user rest, find_missing_ingredients (none :: rest) user =
      find_missing_ingredients rest user) ∧
    (∀ user rest (ing : SpoonacularIngredient), ing.name = "" →
      find_missing_ingredients (some ing :: rest) user = find_missing_ingredients rest user) ∧
    (∀ required user2, find_missing_ingredients required (none :: user2) =
      find_missing_ingredients required user2) ∧
    (∀ required user2, find_missing_ingredients required (some "" :: user2) =
      find_missing_ingredients required user2) := by
  refine ⟨?_, ?_, ?_, ?_, ?_, ?_⟩
  · intro user
    rfl
  · intro required
    rw [find_missing_eq_filter]
    simp [ingFound, userNormSet]
  · intro user rest
    simp [find_missing_ingredients, List.filterMap_cons]
  · intro user rest ing h
    have h2 : ing.name.isEmpty = true := by
      rw [h]
      rfl
    simp [find_missing_ingredients, List.filterMap_cons, h2]
  · intro required user2
    simp [find_missing_ingredients, userNormSet, List.filterMap_cons]
  · intro required user2
    have h0 : (("" : String).isEmpty) = true := rfl
    simp [find_missing_ingredients, userNormSet, List.filterMap_cons, List.filter_cons, h0]

/-- C8 witness: an explicitly empty-named required entry is skipped. -/
theorem C8_witness :
    find_missing_ingredients [some blankIng] [] = find_missing_ingredients [] [] :=
  C8_amended_edge_cases.2.2.2.1 [] [] blankIng rfl

/-- C3: the fallback generator always returns the three base estimates
followed by the single first-match-wins category addition; every element
is flagged as an estimate.  `"Chicken Alfredo Pasta"` (containing both
the `pasta` and the `chicken` keyword) gets the pasta addition and no
chicken addition; `"Plain Rice"` gets exactly the three base estimates. -/
theorem C3_fallback_generator :
    (∀ title : String,
      generate_fallback_ingredients title = fallbackBase ++ fallbackCategoryAddition title ∧
      (generate_fallback_ingredients title).all (fun i => i.is_estimate) = true ∧
      (generate_fallback_ingredients title).take 3 = fallbackBase) ∧
    generate_fallback_ingredients "Chicken Alfredo Pasta" =
      fallbackBase ++ [pastaEstimate, tomatoSauceEstimate] ∧
    strIn "chicken" (pyLower "Chicken Alfredo Pasta") = true ∧
    chickenEstimate ∉ generate_fallback_ingredients "Chicken Alfredo Pasta" ∧
    generate_fallback_ingredients "Plain Rice" = fallbackBase := by
  refine ⟨?_, ?_, ?_, ?_, ?_⟩
  · intro title
    refine ⟨rfl, ?_, ?_⟩
    · simp only [generate_fallback_ingredients]
      split_ifs <;> rfl
    · simp only [generate_fallback_ingredients]
      split_ifs <;> rfl
  · rfl
  · rfl
  · decide
  · rfl

/-- C4: `normalize` lowercases, strips punctuation, collapses whitespace
runs to single spaces trimming the ends (proved against the independent
words-join formulation `normalizeSpec`), then strips a trailing `es` or
`s` at most once; `normalize("Onions")`, `normalize("onion")` and
`normalize("Onion!")` all yield `"onion"`. -/
theorem C4_normalize :
    (∀ name : String, normalize_ingredient name = normalizeSpec name) ∧
    normalize_ingredient "Onions" = "onion" ∧
    normalize_ingredient "onion" = "onion" ∧
    normalize_ingredient "Onion!" = "onion" ∧
    normalize_ingredient "glasses" = "glass" :=
  ⟨normalize_eq_normalizeSpec, rfl, rfl, rfl, rfl⟩

/-! ## Supporting lemmas: the retry loops -/

theorem mrwr_go_waits {ε α : Type} (op : Nat → Except ε α) (maxR : Nat) :
    ∀ (fuel k : Nat),
      1 ≤ (make_request_with_retry_go op maxR k fuel).attempts ∧
      (make_request_with_retry_go op maxR k fuel).attempts ≤ fuel + 1 ∧
      (make_request_with_retry_go op maxR k fuel).waits =
        (List.range ((make_request_with_retry_go op maxR k fuel).attempts - 1)).map
          (fun i => ((1 : ℚ) / 2) * 2 ^ (k + i)) := by
  intro fuel
  induction fuel with
  | zero =>
    intro k
    cases hop : op k <;> simp [make_request_with_retry_go, hop]
  | succ fuel ih =>
    intro k
    cases hop : op k with
    | ok a => simp [make_request_with_retry_go, hop]
    | error e =>
      by_cases hk : k + 1 > maxR
      · simp [make_request_with_retry_go, hop, hk]
      · obtain ⟨ih1, ih2, ih3⟩ := ih (k + 1)
        have hgo : make_request_with_retry_go op maxR k (fuel + 1) =
            ⟨(make_request_with_retry_go op maxR (k + 1) fuel).result,
             ((1 : ℚ) / 2) * 2 ^ k :: (make_request_with_retry_go op maxR (k + 1) fuel).waits,
             (make_request_with_retry_go op maxR (k + 1) fuel).attempts + 1⟩ := by
          simp [make_request_with_retry_go, hop, hk]
        rw [hgo]
        refine ⟨by simp, by simp; omega, ?_⟩
        obtain ⟨m, hm⟩ : ∃ m, (make_request_with_retry_go op maxR (k + 1) fuel).attempts =
            m + 1 := ⟨_, (Nat.succ_pred_eq_of_pos ih1).symm⟩
        rw [ih3, hm]
        simp only [Nat.add_sub_cancel]
        rw [List.range_succ_eq_map, List.map_cons, List.map_map]
        congr 1
        apply List.map_congr_left
        intro a ha
        have hx : k + 1 + a = k + (a + 1) := by omega
        simp [Function.comp, hx]

theorem mrwr_go_allfail {ε α : Type} (op : Nat → Except ε α) (maxR : Nat) (es : Nat → ε) :
    ∀ (fuel k : Nat), fuel = maxR - k → k ≤ maxR →
      (∀ j, k ≤ j → j ≤ maxR → op j = .error (es j)) →
      (make_request_with_retry_go op maxR k fuel).result = .error (es maxR) ∧
      (make_request_with_retry_go op maxR k fuel).attempts = fuel + 1 := by
  intro fuel
  induction fuel with
  | zero =>
    intro k hf hk hall
    have hkm : k = maxR := by omega
    have hop := hall k le_rfl (by omega)
    rw [hkm] at hop ⊢
    simp [make_request_with_retry_go, hop]
  | succ fuel ih =>
    intro k hf hk hall
    have hop := hall k le_rfl (by omega)
    have hk1 : ¬ (k + 1 > maxR) := by omega
    have hrec := ih (k + 1) (by omega) (by omega) (fun j hj1 hj2 => hall j (by omega) hj2)
    simp [make_request_with_retry_go, hop, hk1, hrec.1, hrec.2]

theorem mrwr_go_success {ε α : Type} (op : Nat → Except ε α) (maxR : Nat) :
    ∀ (fuel k j : Nat) (a : α), fuel = maxR - k → k ≤ j → j ≤ maxR → op j = .ok a →
      (∀ i, k ≤ i → i < j → ∃ e, op i = .error e) →
      (make_request_with_retry_go op maxR k fuel).result = .ok a ∧
      (make_request_with_retry_go op maxR k fuel).attempts = j - k + 1 := by
  intro fuel
  induction fuel with
  | zero =>
    intro k j a hf hkj hjm hok hfail
    have hjk : j = k := by omega
    rw [hjk] at hok ⊢
    simp [make_request_with_retry_go, hok]
  | succ fuel ih =>
    intro k j a hf hkj hjm hok hfail
    by_cases hkj2 : k = j
    · subst hkj2
      refine ⟨?_, ?_⟩ <;> simp [make_request_with_retry_go, hok]
    · have hklt : k < j := by omega
      obtain ⟨e, he⟩ := hfail k le_rfl hklt
      have hk1 : ¬ (k + 1 > maxR) := by omega
      have hrec := ih (k + 1) j a (by omega) (by omega) hjm hok
        (fun i hi1 hi2 => hfail i (by omega) hi2)
      have hj : j - k + 1 = (j - (k + 1) + 1) + 1 := by omega
      simp [make_request_with_retry_go, he, hk1, hrec.1, hrec.2, hj]

theorem gem_go_waits {α : Type} (op : Nat → GemAttempt α) (maxR : Nat) :
    ∀ (fuel k : Nat),
      1 ≤ (call_gemini_api_with_retry_go op maxR k fuel).attempts ∧
      (call_gemini_api_with_retry_go op maxR k fuel).attempts ≤ fuel + 1 ∧
      (call_gemini_api_with_retry_go op maxR k fuel).waits =
        (List.range ((call_gemini_api_with_retry_go op maxR k fuel).attempts - 1)).map
          (fun i => (1 : ℚ) * 2 ^ (k + i)) := by
  intro fuel
  induction fuel with
  | zero =>
    intro k
    cases hop : op k <;> simp [call_gemini_api_with_retry_go, hop]
  | succ fuel ih =>
    intro k
    cases hop : op k with
    | ok a => simp [call_gemini_api_with_retry_go, hop]
    | otherErr m => simp [call_gemini_api_with_retry_go, hop]
    | reqErr m =>
      by_cases hk : k + 1 > maxR
      · simp [call_gemini_api_with_retry_go, hop, hk]
      · obtain ⟨ih1, ih2, ih3⟩ := ih (k + 1)
        have hgo : call_gemini_api_with_retry_go op maxR k (fuel + 1) =
            ⟨(call_gemini_api_with_retry_go op maxR (k + 1) fuel).result,
             (1 : ℚ) * 2 ^ k :: (call_gemini_api_with_retry_go op maxR (k + 1) fuel).waits,
             (call_gemini_api_with_retry_go op maxR (k + 1) fuel).attempts + 1⟩ := by
          simp [call_gemini_api_with_retry_go, hop, hk]
        rw [hgo]
        refine ⟨by simp, by simp; omega, ?_⟩
        obtain ⟨m2, hm⟩ : ∃ m2, (call_gemini_api_with_retry_go op maxR (k + 1) fuel).attempts =
            m2 + 1 := ⟨_, (Nat.succ_pred_eq_of_pos ih1).symm⟩
        rw [ih3, hm]
        simp only [Nat.add_sub_cancel]
        rw [List.range_succ_eq_map, List.map_cons, List.map_map]
        congr 1
        apply List.map_congr_left
        intro a ha
        have hx : k + 1 + a = k + (a + 1) := by omega
        simp [Function.comp, hx]

theorem gem_go_allfail {α : Type} (op : Nat → GemAttempt α) (maxR : Nat) (ms : Nat → String) :
    ∀ (fuel k : Nat), fuel = maxR - k → k ≤ maxR →
      (∀ j, k ≤ j → j ≤ maxR → op j = .reqErr (ms j)) →
      (call_gemini_api_with_retry_go op maxR k fuel).result =
        .error ("LLM API failed after retries: " ++ ms maxR) ∧
      (call_gemini_api_with_retry_go op maxR k fuel).attempts = fuel + 1 := by
  intro fuel
  induction fuel with
  | zero =>
    intro k hf hk hall
    have hkm : k = maxR := by omega
    have hop := hall k le_rfl (by omega)
    rw [hkm] at hop ⊢
    simp [call_gemini_api_with_retry_go, hop]
  | succ fuel ih =>
    intro k hf hk hall
    have hop := hall k le_rfl (by omega)
    have hk1 : ¬ (k + 1 > maxR) := by omega
    have hrec := ih (k + 1) (by omega) (by omega) (fun j hj1 hj2 => hall j (by omega) hj2)
    simp [call_gemini_api_with_retry_go, hop, hk1, hrec.1, hrec.2]

theorem gem_go_success {α : Type} (op : Nat → GemAttempt α) (maxR : Nat) :
    ∀ (fuel k j : Nat) (a : α), fuel = maxR - k → k ≤ j → j ≤ maxR → op j = .ok a →
      (∀ i, k ≤ i → i < j → ∃ m, op i = .reqErr m) →
      (call_gemini_api_with_retry_go op maxR k fuel).result = .ok a ∧
      (call_gemini_api_with_retry_go op maxR k fuel).attempts = j - k + 1 := by
  intro fuel
  induction fuel with
  | zero =>
    intro k j a hf hkj hjm hok hfail
    have hjk : j = k := by omega
    rw [hjk] at hok ⊢
    simp [call_gemini_api_with_retry_go, hok]
  | succ fuel ih =>
    intro k j a hf hkj hjm hok hfail
    by_cases hkj2 : k = j
    · subst hkj2
      refine ⟨?_, ?_⟩ <;> simp [call_gemini_api_with_retry_go, hok]
    · have hklt : k < j := by omega
      obtain ⟨m, hm⟩ := hfail k le_rfl hklt
      have hk1 : ¬ (k + 1 > maxR) := by omega
      have hrec := ih (k + 1) j a (by omega) (by omega) hjm hok
        (fun i hi1 hi2 => hfail i (by omega) hi2)
      have hj : j - k + 1 = (j - (k + 1) + 1) + 1 := by omega
      simp [call_gemini_api_with_retry_go, hm, hk1, hrec.1, hrec.2, hj]

/-- C2: both retry wrappers attempt the wrapped operation at most
`maxRetries + 1` times; the wait before retry number `i + 1` is
`0.5 * 2 ^ i` seconds for the request wrapper (recipe and delivery calls)
and `1.0 * 2 ^ i` seconds for the reasoning wrapper; when every attempt
fails transiently, the request wrapper re-raises the final error unchanged
and the reasoning wrapper returns the error derived from the final
failure, after exactly `maxRetries + 1` attempts; and a call that fails on
the first attempts but succeeds at attempt `j + 1 ≤ maxRetries + 1`
returns the successful result.  The production entry points fix
`maxRetries` to `MAX_API_RETRIES = 1` and `MAX_LLM_RETRIES = 2`. -/
theorem C2_retry_wrapper :
    (∀ (ε α : Type) (op : Nat → Except ε α) (maxR : Nat),
      (make_request_with_retry_from op maxR).attempts ≤ maxR + 1 ∧
      (make_request_with_retry_from op maxR).waits =
        (List.range ((make_request_with_retry_from op maxR).attempts - 1)).map
          (fun i => ((1 : ℚ) / 2) * 2 ^ i)) ∧
    (∀ (ε α : Type) (op : Nat → Except ε α) (maxR : Nat) (es : Nat → ε),
      (∀ j, j ≤ maxR → op j = .error (es j)) →
      (make_request_with_retry_from op maxR).result = .error (es maxR) ∧
      (make_request_with_retry_from op maxR).attempts = maxR + 1) ∧
    (∀ (ε α : Type) (op : Nat → Except ε α) (maxR j : Nat) (a : α),
      j ≤ maxR → op j = .ok a → (∀ i, i < j → ∃ e, op i = .error e) →
      (make_request_with_retry_from op maxR).result = .ok a ∧
      (make_request_with_retry_from op maxR).attempts = j + 1) ∧
    (∀ (α : Type) (op : Nat → GemAttempt α) (maxR : Nat),
      (call_gemini_api_with_retry_from op maxR).attempts ≤ maxR + 1 ∧
      (call_gemini_api_with_retry_from op maxR).waits =
        (List.range ((call_gemini_api_with_retry_from op maxR).attempts - 1)).map
          (fun i => (1 : ℚ) * 2 ^ i)) ∧
    (∀ (α : Type) (op : Nat → GemAttempt α) (maxR : Nat) (ms : Nat → String),
      (∀ j, j ≤ maxR → op j = .reqErr (ms j)) →
      (call_gemini_api_with_retry_from op maxR).result =
        .error ("LLM API failed after retries: " ++ ms maxR) ∧
      (call_gemini_api_with_retry_from op maxR).attempts = maxR + 1) ∧
    (∀ (α : Type) (op : Nat → GemAttempt α) (maxR j : Nat) (a : α),
      j ≤ maxR → op j = .ok a → (∀ i, i < j → ∃ m, op i = .reqErr m) →
      (call_gemini_api_with_retry_from op maxR).result = .ok a ∧
      (call_gemini_api_with_retry_from op maxR).attempts = j + 1) ∧
    (MAX_API_RETRIES = 1 ∧ MAX_LLM_RETRIES = 2) ∧
    (∀ (ε α : Type) (op : Nat → Except ε α),
      make_request_with_retry op = make_request_with_retry_from op MAX_API_RETRIES) ∧
    (∀ (α : Type) (op : Nat → GemAttempt α),
      call_gemini_api_with_retry op = call_gemini_api_with_retry_from op MAX_LLM_RETRIES) := by
  refine ⟨?_, ?_, ?_, ?_, ?_, ?_, ⟨rfl, rfl⟩, fun ε α op => rfl, fun α op => rfl⟩
  · intro ε α op maxR
    obtain ⟨h1, h2, h3⟩ := mrwr_go_waits op maxR maxR 0
    refine ⟨by simpa [make_request_with_retry_from] using h2, ?_⟩
    unfold make_request_with_retry_from
    rw [h3]
    apply List.map_congr_left
    intro a _
    simp
  · intro ε α op maxR es hall
    have h := mrwr_go_allfail op maxR es maxR 0 (by omega) (by omega)
      (fun j hj1 hj2 => hall j hj2)
    unfold make_request_with_retry_from
    exact ⟨h.1, h.2⟩
  · intro ε α op maxR j a hj hok hfail
    have h := mrwr_go_success op maxR maxR 0 j a (by omega) (by omega) hj hok
      (fun i hi1 hi2 => hfail i hi2)
    unfold make_request_with_retry_from
    refine ⟨h.1, ?_⟩
    rw [h.2]
    omega
  · intro α op maxR
    obtain ⟨h1, h2, h3⟩ := gem_go_waits op maxR maxR 0
    refine ⟨by simpa [call_gemini_api_with_retry_from] using h2, ?_⟩
    unfold call_gemini_api_with_retry_from
    rw [h3]
    apply List.map_congr_left
    intro a _
    simp
  · intro α op maxR ms hall
    have h := gem_go_allfail op maxR ms maxR 0 (by omega) (by omega)
      (fun j hj1 hj2 => hall j hj2)
    unfold call_gemini_api_with_retry_from
    exact ⟨h.1, h.2⟩
  · intro α op maxR j a hj hok hfail
    have h := gem_go_success op maxR maxR 0 j a (by omega) (by omega) hj hok
      (fun i hi1 hi2 => hfail i hi2)
    unfold call_gemini_api_with_retry_from
    refine ⟨h.1, ?_⟩
    rw [h.2]
    omega

/-- C2 witness: with `maxRetries = 1` an always-failing request call
propagates the error of attempt index 1 after two attempts; a call that
fails once then succeeds returns the success; with `maxRetries = 2` the
reasoning call that always fails transiently reports the wrapped final
error, and one that fails twice then succeeds returns the success. -/
theorem C2_witness :
    (make_request_with_retry_from (fun k => (.error (toString k) : Except String Nat)) 1).result =
      .error "1" ∧
    (make_request_with_retry_from (fun k => (.error (toString k) : Except String Nat)) 1).attempts = 2 ∧
    (make_request_with_retry_from
      (fun k => if k = 0 then (.error "x" : Except String Nat) else .ok 7) 1).result = .ok 7 ∧
    (call_gemini_api_with_retry_from (fun k => (.reqErr (toString k) : GemAttempt Nat)) 2).result =
      .error ("LLM API failed after retries: " ++ toString 2) ∧
    (call_gemini_api_with_retry_from
      (fun k => if k < 2 then (.reqErr "x" : GemAttempt Nat) else .ok 9) 2).result = .ok 9 := by
  refine ⟨?_, ?_, ?_, ?_, ?_⟩
  · exact (C2_retry_wrapper.2.1 String Nat (fun k => .error (toString k)) 1
      (fun k => toString k) (fun j _ => rfl)).1
  · exact (C2_retry_wrapper.2.1 String Nat (fun k => .error (toString k)) 1
      (fun k => toString k) (fun j _ => rfl)).2
  · exact (C2_retry_wrapper.2.2.1 String Nat
      (fun k => if k = 0 then (.error "x" : Except String Nat) else .ok 7) 1 1 7
      (by omega) rfl (fun i hi => ⟨"x", by interval_cases i; rfl⟩)).1
  · exact (C2_retry_wrapper.2.2.2.2.1 Nat (fun k => .reqErr (toString k)) 2
      (fun k => toString k) (fun j _ => rfl)).1
  · exact (C2_retry_wrapper.2.2.2.2.2.1 Nat
      (fun k => if k < 2 then (.reqErr "x" : GemAttempt Nat) else .ok 9) 2 2 9
      (by omega) rfl (fun i hi => ⟨"x", by interval_cases i <;> rfl⟩)).1

/-! ## Supporting lemmas: the errors summary of the metadata extraction -/

theorem mem_insertSorted (a s : String) : ∀ (l : List String),
    a ∈ insertSorted s l ↔ a = s ∨ a ∈ l := by
  intro l
  induction l with
  | nil => simp [insertSorted]
  | cons t ts ih =>
    by_cases h : strLeB s t
    · simp [insertSorted, h]
    · simp [insertSorted, h, ih]
      tauto

theorem mem_sortStrings (a : String) : ∀ (l : List String),
    a ∈ sortStrings l ↔ a ∈ l := by
  intro l
  induction l with
  | nil => simp [sortStrings]
  | cons s ss ih =>
    simp [sortStrings, mem_insertSorted, ih]

theorem mem_dedupStr (a : String) : ∀ (l : List String), a ∈ dedupStr l ↔ a ∈ l := by
  intro l
  induction l with
  | nil => simp [dedupStr]
  | cons s ss ih =>
    by_cases h : ss.contains s
    · have hmem : s ∈ ss := List.elem_iff.mp h
      simp only [dedupStr, h, if_true, ih, List.mem_cons]
      constructor
      · tauto
      · rintro (rfl | hm)
        · exact hmem
        · exact hm
    · have h2 : s ∉ ss := fun hx => h (List.elem_iff.mpr hx)
      simp [dedupStr, h2, ih]

theorem dedupStr_all_empty : ∀ (l : List String), (∀ s ∈ l, s = "") →
    dedupStr l = [] ∨ dedupStr l = [""] := by
  intro l
  induction l with
  | nil => exact fun _ => Or.inl rfl
  | cons s ss ih =>
    intro h
    have hs : s = "" := h s (by simp)
    by_cases hc : ss.contains s
    · simp only [dedupStr, hc, if_true]
      exact ih (fun t ht => h t (by simp [ht]))
    · have hss : ss = [] := by
        cases ss with
        | nil => rfl
        | cons t ts =>
          have ht : t = "" := h t (by simp)
          rw [hs] at hc
          rw [ht] at hc
          simp at hc
      rw [hss] at hc ⊢
      simp [dedupStr, hs]

theorem pyJoin_mem_length (sep : String) (s : String) : ∀ (l : List String), s ∈ l →
    s.length ≤ (pyJoin sep l).length := by
  intro l
  induction l with
  | nil => simp
  | cons a rest ih =>
    intro hs
    cases rest with
    | nil =>
      simp at hs
      rw [hs]
      simp [pyJoin]
    | cons b bs =>
      rcases List.mem_cons.mp hs with h | h
      · rw [h]
        simp only [pyJoin, String.length_append]
        omega
      · have := ih h
        simp only [pyJoin, String.length_append]
        omega

theorem isPrefixB_mem : ∀ (n l : List Char), isPrefixB n l = true → ∀ c ∈ n, c ∈ l := by
  intro n
  induction n with
  | nil => simp
  | cons a as ih =>
    intro l hp c hc
    cases l with
    | nil => simp [isPrefixB] at hp
    | cons b bs =>
      simp only [isPrefixB, Bool.and_eq_true, beq_iff_eq] at hp
      rcases List.mem_cons.mp hc with h | h
      · rw [h, ← hp.1]
        simp
      · exact List.mem_cons_of_mem b (ih bs hp.2 c h)

theorem containsB_mem (n : List Char) : ∀ (h : List Char), containsB n h = true →
    ∀ c ∈ n, c ∈ h := by
  intro h
  induction h with
  | nil =>
    intro hc c hcn
    simp only [containsB, List.isEmpty_iff] at hc
    rw [hc] at hcn
    simp at hcn
  | cons b bs ih =>
    intro hc c hcn
    simp only [containsB, Bool.or_eq_true] at hc
    rcases hc with hp | hr
    · exact isPrefixB_mem n (b :: bs) hp c hcn
    · exact List.mem_cons_of_mem b (ih hr c hcn)

theorem space_toLower_ne_p (d : Char) (h : isPySpace d = true) : d.toLower ≠ 'p' := by
  simp only [isPySpace, Bool.or_eq_true, beq_iff_eq] at h
  rcases h with ((((h | h) | h) | h) | h) | h <;> rw [h] <;> decide

theorem mem_dropWhile_of_neg (p : Char → Bool) (c : Char) (hp : p c = false) :
    ∀ (l : List Char), c ∈ l → c ∈ l.dropWhile p := by
  intro l
  induction l with
  | nil => simp
  | cons a t ih =>
    intro hc
    by_cases ha : p a
    · rw [List.dropWhile_cons_of_pos ha]
      rcases List.mem_cons.mp hc with h | h
      · rw [h] at hp
        rw [hp] at ha
        simp at ha
      · exact ih h
    · rw [List.dropWhile_cons_of_neg ha]
      exact hc

theorem mem_stripList (c : Char) (hp : isPySpace c = false) (l : List Char) (hc : c ∈ l) :
    c ∈ stripList l := by
  unfold stripList trimRight
  have h1 : c ∈ l.dropWhile isPySpace := mem_dropWhile_of_neg _ c hp l hc
  have h2 : c ∈ (l.dropWhile isPySpace).reverse := List.mem_reverse.mpr h1
  have h3 : c ∈ (l.dropWhile isPySpace).reverse.dropWhile isPySpace :=
    mem_dropWhile_of_neg _ c hp _ h2
  exact List.mem_reverse.mpr h3

theorem pref_tag_strip_ne (m : String) (h : strIn "preference" (pyLower m) = true) :
    pyStrip m ≠ "" := by
  have hp : 'p' ∈ (pyLower m).data := by
    apply containsB_mem "preference".data (pyLower m).data h
    decide
  have : ∃ d ∈ m.data, d.toLower = 'p' := by
    simpa [pyLower, List.mem_map] using hp
  obtain ⟨d, hd, hdl⟩ := this
  have hds : isPySpace d = false := by
    by_cases hx : isPySpace d = true
    · exact absurd hdl (space_toLower_ne_p d hx)
    · simpa using hx
  have hmem : d ∈ stripList m.data := mem_stripList d hds m.data hd
  intro hq
  unfold pyStrip at hq
  have : stripList m.data = [] := by
    have := congrArg String.data hq
    simpa using this
  rw [this] at hmem
  simp at hmem

theorem strip_ne_empty_string (l : List Char) (h : stripList l ≠ []) :
    (⟨stripList l⟩ : String) ≠ "" := by
  intro hq
  have := congrArg String.data hq
  simp at this
  exact h this

theorem str_length_zero (s : String) : s.length = 0 ↔ s = "" := by
  constructor
  · intro h
    have hd : s.data = [] := List.length_eq_zero.mp h
    cases s
    simp only at hd
    rw [hd]
  · intro h
    rw [h]
    rfl

theorem metadataErrors_empty_iff (text : String) :
    metadataErrors text = "" ↔ ∀ m ∈ findErrTags text.data, pyStrip m = "" := by
  constructor
  · intro he m hm
    by_contra hne
    have hbase : pyStrip m ∈ sortStrings (dedupStr ((findErrTags text.data).map pyStrip)) := by
      rw [mem_sortStrings, mem_dedupStr]
      exact List.mem_map_of_mem pyStrip hm
    have hlen : (pyStrip m).length ≤ (metadataErrorsBase text).length :=
      pyJoin_mem_length "; " (pyStrip m) _ hbase
    have hplen : 0 < (pyStrip m).length := by
      rcases Nat.eq_zero_or_pos (pyStrip m).length with h0 | h0
      · exact absurd ((str_length_zero (pyStrip m)).mp h0) hne
      · exact h0
    have htotal := congrArg String.length he
    rw [metadataErrors, String.length_append] at htotal
    rw [show ("" : String).length = 0 from rfl] at htotal
    omega
  · intro hall
    rw [metadataErrors]
    have hpref : metadataErrorsPref text = [] := by
      rw [metadataErrorsPref, List.filter_eq_nil_iff]
      intro m hm hs
      exact absurd (hall m hm) (pref_tag_strip_ne m hs)
    rw [hpref]
    simp only [List.isEmpty_nil, if_true]
    have hde := dedupStr_all_empty ((findErrTags text.data).map pyStrip) (by
      intro q hq
      obtain ⟨m, hm, rfl⟩ := List.mem_map.mp hq
      exact hall m hm)
    rw [metadataErrorsBase]
    rcases hde with h | h <;> rw [h] <;> rfl

/-- C9 counterexample: the claim says the top-level error is set whenever
one or more `[ERROR: X]` tags are extracted from a successful reply.  The
reply `"[ERROR: ] x"` contains exactly one tag, but its description strips
to the empty string, the joined errors summary is empty (falsy), and the
promotion is skipped: the result error stays `none`. -/
theorem C9_counterexample :
    (findErrTags ("[ERROR: ] x" : String).data).length = 1 ∧
    (run_llm_analysis (some "key") "prompt" (.okText "[ERROR: ] x")).error = none := by
  constructor
  · rfl
  · rfl

/-- C9 (amended): on a successful call with a present credential, the
top-level error is set (to the `LLM identified issues` summary) exactly
when the extracted errors summary string is non-empty, which happens
exactly when some extracted `[ERROR: X]` tag has a description that does
not strip to the empty string; with no such tag the promotion leaves the
error unset. -/
theorem C9_amended_error_promotion :
    ∀ (key promptBuilt text : String),
      ((run_llm_analysis (some key) promptBuilt (.okText text)).error =
        if (metadataErrors text).isEmpty then none
        else some ("LLM identified issues: " ++ metadataErrors text)) ∧
      ((run_llm_analysis (some key) promptBuilt (.okText text)).error.isSome =
        (findErrTags text.data).any (fun t => !(pyStrip t).isEmpty)) := by
  intro key promptBuilt text
  refine ⟨rfl, ?_⟩
  by_cases he : metadataErrors text = ""
  · have hall := (metadataErrors_empty_iff text).mp he
    have hany : (findErrTags text.data).any (fun t => !(pyStrip t).isEmpty) = false := by
      rw [Bool.eq_false_iff]
      intro hx
      obtain ⟨t, ht, hp⟩ := List.any_eq_true.mp hx
      rw [hall t ht] at hp
      rw [show (("" : String).isEmpty) = true from rfl] at hp
      simp at hp
    have hie : (metadataErrors text).isEmpty = true := by
      rw [he]
      rfl
    simp [run_llm_analysis, hie, hany]
  · have hie : (metadataErrors text).isEmpty = false := by
      rw [Bool.eq_false_iff]
      intro hx
      exact he ((String.isEmpty_iff (metadataErrors text)).mp hx)
    have hex : ∃ m ∈ findErrTags text.data, pyStrip m ≠ "" := by
      by_contra hno
      push_neg at hno
      exact he ((metadataErrors_empty_iff text).mpr hno)
    obtain ⟨m, hm, hne⟩ := hex
    have hany : (findErrTags text.data).any (fun t => !(pyStrip t).isEmpty) = true := by
      rw [List.any_eq_true]
      refine ⟨m, hm, ?_⟩
      rw [Bool.not_eq_true']
      rw [Bool.eq_false_iff]
      intro hx
      exact hne ((String.isEmpty_iff (pyStrip m)).mp hx)
    simp [run_llm_analysis, hie, hany]

/-- C5 counterexample: the claim says a successful recipe lookup with zero
matches yields a non-error response whose error field is absent/null.
The pipeline does return `recipes = []`, but it places the no-matches
message in the `error` field, which is therefore not null. -/
theorem C5_counterexample :
    (process_find_recipes ⟨"chicken, rice", some "any", some "any"⟩ llmBenign
      ⟨some [], none⟩).recipes = some [] ∧
    (process_find_recipes ⟨"chicken, rice", some "any", some "any"⟩ llmBenign
      ⟨some [], none⟩).error ≠ none := by
  constructor
  · rfl
  · decide

/-- C5 (amended): when the reasoning result does not trigger the
invalid-ingredients short circuit and the recipe-provider call succeeds
with zero matches, the response has `recipes = []` (an empty list, not
null, unlike the fatal paths which set `recipes` to null), and the
"no matches" message is carried in the response error field, which is
therefore non-null in this case. -/
theorem C5_amended_no_matches :
    ∀ (request : FindRecipesRequest) (llm : LLMAnalysisResult),
      llmInvalidShortCircuit llm = false →
      process_find_recipes request llm ⟨some [], none⟩ =
        { recipes := some [],
          error := some "No recipes found matching your ingredients and preferences.",
          llm_prompt := llm.prompt,
          metaErrors := llm.metaErrors } := by
  intro request llm h
  simp [process_find_recipes, h, optStrTruthy,
    show List.mapM.loop parseRecipeItem ([] : List RawRecipeItem) ([] : List RecipeSummary) =
      Except.ok [] from rfl]

/-- C5 witness: the zero-match run on a benign reasoning result. -/
theorem C5_witness :
    process_find_recipes ⟨"chicken, rice", some "any", some "any"⟩ llmBenign ⟨some [], none⟩ =
      { recipes := some [],
        error := some "No recipes found matching your ingredients and preferences.",
        llm_prompt := llmBenign.prompt,
        metaErrors := llmBenign.metaErrors } :=
  C5_amended_no_matches ⟨"chicken, rice", some "any", some "any"⟩ llmBenign rfl

/-- C6: when the recipe-detail call fails, or when ingredient extraction
fails, the missing-ingredients pipeline does not abort: it returns the
fallback-generator list for the recipe title with `isEstimate = true` and
a descriptive error naming the trigger; the fallback list is non-empty
and starts with the three base estimates. -/
theorem C6_detail_failure_fallback :
    (∀ (request : GetMissingIngredientsRequest) (llm : LLMAnalysisResult)
        (dataOpt : Option RecipeData) (msg : String), msg ≠ "" →
      process_get_missing_ingredients request llm ⟨dataOpt, some msg⟩ =
        { missingIngredients := some (generate_fallback_ingredients request.recipeTitle),
          isEstimate := true,
          error := some ("Could not retrieve exact recipe ingredients: " ++ msg),
          llm_prompt := llm.prompt }) ∧
    (∀ (request : GetMissingIngredientsRequest) (llm : LLMAnalysisResult)
        (d : RecipeData) (e : String), extractRequiredIngredients d = .error e →
      process_get_missing_ingredients request llm ⟨some d, none⟩ =
        { missingIngredients := some (generate_fallback_ingredients request.recipeTitle),
          isEstimate := true,
          error := some ("Error processing recipe ingredients: " ++ e),
          llm_prompt := llm.prompt }) ∧
    (∀ title, (generate_fallback_ingredients title).take 3 = fallbackBase ∧
      generate_fallback_ingredients title ≠ []) := by
  refine ⟨?_, ?_, ?_⟩
  · intro request llm dataOpt msg h
    have h2 : msg.isEmpty = false := by
      rw [Bool.eq_false_iff]
      intro hx
      exact h ((String.isEmpty_iff msg).mp hx)
    simp [process_get_missing_ingredients, optStrTruthy, h2]
  · intro request llm d e h
    simp [process_get_missing_ingredients, optStrTruthy, h]
  · intro title
    constructor
    · simp only [generate_fallback_ingredients]
      split_ifs <;> rfl
    · simp only [generate_fallback_ingredients]
      split_ifs <;> simp [fallbackBase]

/-- C6 witness: a failed detail call and an empty extended-ingredients
list both produce the estimate fallback for the concrete request. -/
theorem C6_witness :
    process_get_missing_ingredients ⟨1, "Veggie Soup", []⟩ llmBenign ⟨none, some "Status 500"⟩ =
      { missingIngredients := some (generate_fallback_ingredients "Veggie Soup"),
        isEstimate := true,
        error := some ("Could not retrieve exact recipe ingredients: " ++ "Status 500"),
        llm_prompt := llmBenign.prompt } ∧
    process_get_missing_ingredients ⟨1, "Veggie Soup", []⟩ llmBenign ⟨some ⟨some []⟩, none⟩ =
      { missingIngredients := some (generate_fallback_ingredients "Veggie Soup"),
        isEstimate := true,
        error := some ("Error processing recipe ingredients: " ++ "list index out of range"),
        llm_prompt := llmBenign.prompt } :=
  ⟨C6_detail_failure_fallback.1 ⟨1, "Veggie Soup", []⟩ llmBenign none "Status 500" (by decide),
   C6_detail_failure_fallback.2.1 ⟨1, "Veggie Soup", []⟩ llmBenign ⟨some []⟩
     "list index out of range" rfl⟩

/-- C7: chat delivery succeeds exactly when the Telegram payload reports
`ok`, independent of the HTTP status of the delivered response; email
delivery succeeds exactly on HTTP status 202, and any other delivered
status (including other 2xx) is a failure whose message detail is
computed by inspecting the response body. -/
theorem C7_delivery_success_criteria :
    (∀ (key chat_id text : String) (resp : HttpResponse TelegramBody),
      (send_telegram_message (some key) chat_id text (.ok resp)).success = resp.body.ok) ∧
    (∀ (key chat_id text : String) (b : TelegramBody) (s1 s2 : Nat),
      send_telegram_message (some key) chat_id text (.ok ⟨s1, b⟩) =
        send_telegram_message (some key) chat_id text (.ok ⟨s2, b⟩)) ∧
    (∀ (key sender to_email subject body : String) (resp : HttpResponse (Option SgBody)),
      (send_sendgrid_email (some key) (some sender) to_email subject body (.ok resp)).success =
        (resp.status == 202)) ∧
    (∀ (key sender to_email subject body : String) (resp : HttpResponse (Option SgBody)),
      resp.status ≠ 202 →
      (send_sendgrid_email (some key) (some sender) to_email subject body (.ok resp)).message =
        get_error_message "SENDGRID_ERROR" (sendgridDetail to_email sender resp)) := by
  refine ⟨?_, ?_, ?_, ?_⟩
  · intro key chat_id text resp
    by_cases h : resp.body.ok <;> simp [send_telegram_message, h]
  · intro key chat_id text b s1 s2
    rfl
  · intro key sender to_email subject body resp
    by_cases h : resp.status == 202 <;> simp [send_sendgrid_email, h]
  · intro key sender to_email subject body resp h
    have h2 : (resp.status == 202) = false := by
      rw [Bool.eq_false_iff]
      intro hx
      exact h (by simpa using hx)
    simp [send_sendgrid_email, h2]

/-- C7 witness: a delivered SendGrid response with status 200 (a 2xx
other than 202) is reported as a failure with the body-derived detail. -/
theorem C7_witness :
    (send_sendgrid_email (some "sg") (some "sender@example.com") "to@example.com" "Subj" "Body"
      (.ok ⟨200, some ⟨some [⟨some "bad thing"⟩]⟩⟩)).message =
      get_error_message "SENDGRID_ERROR"
        (sendgridDetail "to@example.com" "sender@example.com"
          ⟨200, some ⟨some [⟨some "bad thing"⟩]⟩⟩) :=
  C7_delivery_success_criteria.2.2.2 "sg" "sender@example.com" "to@example.com" "Subj" "Body"
    ⟨200, some ⟨some [⟨some "bad thing"⟩]⟩⟩ (by decide)

/-- C10: when the detail call succeeds but the returned
`extendedIngredients` list is present and empty, indexing its first
element raises, the exception is caught, and the pipeline returns the
fallback estimates with `isEstimate = true` and the
"Error processing recipe ingredients" error carrying the IndexError text;
an empty ingredient list is never treated as "nothing missing". -/
theorem C10_empty_ingredients_fallback :
    ∀ (request : GetMissingIngredientsRequest) (llm : LLMAnalysisResult),
      process_get_missing_ingredients request llm ⟨some ⟨some []⟩, none⟩ =
        { missingIngredients := some (generate_fallback_ingredients request.recipeTitle),
          isEstimate := true,
          error := some "Error processing recipe ingredients: list index out of range",
          llm_prompt := llm.prompt } ∧
      (generate_fallback_ingredients request.recipeTitle).take 3 = fallbackBase := by
  intro request llm
  constructor
  · rfl
  · simp only [generate_fallback_ingredients]
    split_ifs <;> rfl
